import Mathlib

/-!
Shallow embedding of the stoichiometric calculator's core
(`process_stoichiometry` in `src/app.py`, lines 118-153).

Real numbers are modelled by `ℚ` (the code's arithmetic on the parsed
numeric fields is exact apart from binary-float rounding, and the spec's
algebraic properties are stated over real/rational arithmetic).  The
mole-fraction and mass-fraction columns, which in the code are float
divisions that may produce non-finite values when the denominator is
zero, are modelled as `Option ℚ` with `none` standing for the non-finite
outcome (the code never raises on that division).

The three error kinds of the spec's taxonomy (`ParseError`,
`IndexError`, `ValidationError`) correspond to the three failure sites
of the code: `float`/`pd.to_numeric` failures, the out-of-range label
lookup `df.loc[lim_idx, ...]`, and the explicit `raise ValueError` for a
non-negative limiting coefficient.
-/

set_option autoImplicit false

namespace Stoich

/-- One chemical species of the input table: a row of the `DataFrame`
built at `app.py` lines 120-125, with the three numeric fields already
parsed. -/
structure SpeciesRow where
  name : String
  coefficient : ℚ
  initial_feed : ℚ
  molar_mass : ℚ
  deriving DecidableEq, Repr

/-- The spec's error taxonomy: `ParseError` (non-numeric input text),
`IndexError` (limiting-reactant index outside the table), and
`ValidationError` (non-negative limiting coefficient). -/
inductive StoichError where
  | parseError
  | indexError
  | validationError
  deriving DecidableEq, Repr

/-- One row of the main result table: the input row extended with the
five derived columns added at `app.py` lines 139-144.  The two fraction
columns are `none` when their denominator (the column sum) is zero,
modelling the non-finite float that the code produces there. -/
structure MainRow where
  name : String
  coefficient : ℚ
  initial_feed : ℚ
  molar_mass : ℚ
  change : ℚ
  final_flow : ℚ
  mole_fraction : Option ℚ
  final_mass : ℚ
  mass_fraction : Option ℚ
  deriving DecidableEq, Repr

/-- The main result table (`df` as returned by `process_stoichiometry`). -/
structure MainResult where
  rows : List MainRow
  deriving DecidableEq, Repr

/-- The comparison table (`comp_df`): the fixed `Species` and
`Initial Feed` columns plus one final-flow column per comparison
conversion, labelled by the conversion value (the code labels the pandas
column with the f-string `"X = {x}"`, which is determined by the literal
unrounded value of `x`; the label is modelled by that value). -/
structure ComparisonResult where
  species : List String
  initial_feed : List ℚ
  columns : List (ℚ × List ℚ)
  deriving DecidableEq, Repr

/-- Python's `str.split(",")`: cut the character sequence at every
comma, keeping empty pieces (so the empty string gives one empty token,
and a trailing comma produces a trailing empty token). -/
def splitOnComma : List Char → List (List Char)
  | [] => [[]]
  | c :: t =>
    match splitOnComma t, decide (c = ',') with
    | r, true => [] :: r
    | [], false => [[c]]
    | h :: r, false => (c :: h) :: r

/-- A whitespace character as removed by Python's `str.strip()`
(restricted to the ASCII whitespace characters; no claim involves the
further Unicode ones). -/
def isPySpace (c : Char) : Bool :=
  c == ' ' || c == '\t' || c == '\n' || c == '\r' || c == '\x0b' || c == '\x0c'

/-- Python's `str.strip()`: drop leading and trailing whitespace. -/
def pyStrip (cs : List Char) : List Char :=
  ((cs.dropWhile isPySpace).reverse.dropWhile isPySpace).reverse

/-- A decimal-digit test on a character (Python's notion for `float`
literals is exactly the ASCII digits in this fragment). -/
def isDigitChar (c : Char) : Bool :=
  decide (48 ≤ c.toNat) && decide (c.toNat ≤ 57)

/-- Accumulate decimal digits from the front of a character list,
returning the accumulated value, the number of digits consumed, and the
rest of the list. -/
def parseDigits : List Char → Nat → Nat → Nat × Nat × List Char
  | [], v, n => (v, n, [])
  | c :: t, v, n =>
    if isDigitChar c then parseDigits t (v * 10 + (c.toNat - 48)) (n + 1)
    else (v, n, c :: t)

/-- Python's `float` builtin on finite decimal literals (optional sign,
digits with an optional decimal point, optional exponent), returning the
exact rational value, or `none` when the character sequence is not a
valid literal.  Non-finite literals (`inf`, `nan`) and digit-group
underscores are not modelled; no claim involves them. -/
def pyFloat (cs : List Char) : Option ℚ :=
  let step1 : ℚ × List Char :=
    match cs with
    | '+' :: t => (1, t)
    | '-' :: t => (-1, t)
    | t => (1, t)
  let sgn := step1.1
  let (ip, ipn, rest1) := parseDigits step1.2 0 0
  let step2 : Nat × Nat × List Char :=
    match rest1 with
    | '.' :: t => parseDigits t 0 0
    | t => (0, 0, t)
  let (fp, fpn, rest2) := step2
  let step3 : Option (Int × List Char) :=
    match rest2 with
    | 'e' :: t =>
      let es : Int × List Char :=
        match t with
        | '+' :: u => (1, u)
        | '-' :: u => (-1, u)
        | u => (1, u)
      let (ev, evn, rest) := parseDigits es.2 0 0
      if evn = 0 then none else some (es.1 * (ev : Int), rest)
    | 'E' :: t =>
      let es : Int × List Char :=
        match t with
        | '+' :: u => (1, u)
        | '-' :: u => (-1, u)
        | u => (1, u)
      let (ev, evn, rest) := parseDigits es.2 0 0
      if evn = 0 then none else some (es.1 * (ev : Int), rest)
    | t => some (0, t)
  match step3 with
  | none => none
  | some (ex, rest3) =>
    if ipn + fpn = 0 ∨ rest3 ≠ [] then none
    else
      let mant : ℚ := sgn * ((ip : ℚ) + (fp : ℚ) / (10 : ℚ) ^ fpn)
      some (if 0 ≤ ex then mant * (10 : ℚ) ^ ex.toNat
            else mant / (10 : ℚ) ^ (-ex).toNat)

/-- Evaluate `float(x.strip())` on every token, in order; the whole
list fails as soon as any token fails (the Python list comprehension
propagates the first exception). -/
def collectTokens : List (List Char) → Option (List ℚ)
  | [] => some []
  | t :: ts =>
    match pyFloat (pyStrip t), collectTokens ts with
    | some v, some l => some (v :: l)
    | _, _ => none

/-- The comparison-conversion parse at `app.py` line 146:
`[float(x.strip()) for x in multi_conv.split(",")]`.  Any token that is
not a valid numeric literal (including the empty token produced by a
trailing or doubled comma) makes the whole parse fail. -/
def parseConvList (s : String) : Except StoichError (List ℚ) :=
  match collectTokens (splitOnComma s.data) with
  | some l => Except.ok l
  | none => Except.error StoichError.parseError

/-- Label lookup `df.loc[i, ...]` on a 4-row `RangeIndex` frame: the
integer label must be an actual index of the row list, otherwise pandas
raises (the spec's `IndexError` kind). -/
def locRow (rows : List SpeciesRow) (i : ℤ) : Option SpeciesRow :=
  if i < 0 then none else rows[i.toNat]?

/-- The extent of reaction, `app.py` line 137:
`xi = (n0_lim * conversion) / abs(nu_lim)`. -/
def xiOf (n0_lim nu_lim conversion : ℚ) : ℚ :=
  (n0_lim * conversion) / |nu_lim|

/-- The derived columns of the main table, `app.py` lines 139-144.
`change = ν * xi`, `final_flow = n0 + change`, the fractions divide by
the column sums (with `none` modelling the non-finite value produced
when a sum is zero), and `final_mass = final_flow * molar_mass`. -/
def mainTable (rows : List SpeciesRow) (xi : ℚ) : List MainRow :=
  let flowSum := (rows.map (fun r => r.initial_feed + r.coefficient * xi)).sum
  let massSum :=
    (rows.map (fun r => (r.initial_feed + r.coefficient * xi) * r.molar_mass)).sum
  rows.map (fun r =>
    let change := r.coefficient * xi
    let flow := r.initial_feed + change
    let mass := flow * r.molar_mass
    { name := r.name
      coefficient := r.coefficient
      initial_feed := r.initial_feed
      molar_mass := r.molar_mass
      change := change
      final_flow := flow
      mole_fraction := if flowSum = 0 then none else some (flow / flowSum)
      final_mass := mass
      mass_fraction := if massSum = 0 then none else some (mass / massSum) })

/-- The final-flow column computed for one comparison conversion `x`,
`app.py` lines 150-151: `n0 + ν * xi_temp` with
`xi_temp = (n0_lim * x) / abs(nu_lim)`. -/
def flowColumn (rows : List SpeciesRow) (n0_lim nu_lim x : ℚ) : List ℚ :=
  rows.map (fun r => r.initial_feed + r.coefficient * xiOf n0_lim nu_lim x)

/-- Pandas column assignment `comp_df[label] = values`: when a column
with that label already exists it is overwritten in place, otherwise a
new column is appended on the right. -/
def setColumn (cols : List (ℚ × List ℚ)) (x : ℚ) (v : List ℚ) :
    List (ℚ × List ℚ) :=
  if cols.any (fun c => c.1 = x) then
    cols.map (fun c => if c.1 = x then (x, v) else c)
  else cols ++ [(x, v)]

/-- The comparison table build, `app.py` lines 147-151: start from the
`Species` and `Initial Feed` columns and assign one final-flow column
per entry of the parsed conversion list. -/
def compTable (rows : List SpeciesRow) (n0_lim nu_lim : ℚ) (l : List ℚ) :
    ComparisonResult :=
  { species := rows.map SpeciesRow.name
    initial_feed := rows.map SpeciesRow.initial_feed
    columns :=
      l.foldl (fun cols x => setColumn cols x (flowColumn rows n0_lim nu_lim x)) [] }

/-- The core computation, `app.py` lines 127-153, on the parsed input
(the table rows with numeric fields parsed, the 1-based limiting index,
the conversion level, and the raw comparison string, which the code
parses only after the limiting-reactant validation).  Failure sites, in
the code's order: the row lookup `df.loc[lim_idx, ...]`, the
`nu_lim >= 0` validation, and the comparison-string parse. -/
def compute (rows : List SpeciesRow) (lim_index : ℤ) (conversion : ℚ)
    (multi_conv : String) : Except StoichError (MainResult × ComparisonResult) :=
  let lim_idx := lim_index - 1
  match locRow rows lim_idx with
  | none => Except.error StoichError.indexError
  | some rowLim =>
    if 0 ≤ rowLim.coefficient then Except.error StoichError.validationError
    else
      let xi := xiOf rowLim.initial_feed rowLim.coefficient conversion
      match parseConvList multi_conv with
      | Except.error e => Except.error e
      | Except.ok conv_list =>
        Except.ok (⟨mainTable rows xi⟩,
          compTable rows rowLim.initial_feed rowLim.coefficient conv_list)

/-- The four default species of the source form (`app.py` lines 162-168),
used as the concrete inputs of the witness theorems. -/
def demoRows : List SpeciesRow :=
  [⟨"A (Reactant)", -1, 100, 16⟩, ⟨"B (Reactant)", -2, 250, 32⟩,
   ⟨"C (Product)", 1, 0, 44⟩, ⟨"D (Inert)", 0, 50, 28⟩]

/-- A table whose final flows and final masses both sum to zero at
conversion `0` (feeds `2, -2, 0, 0`, unit molar masses), exercising the
zero-total edge case of the fraction columns. -/
def zeroSumRows : List SpeciesRow :=
  [⟨"A", -1, 2, 1⟩, ⟨"B", 1, -2, 1⟩, ⟨"C", 0, 0, 1⟩, ⟨"D", 0, 0, 1⟩]

/-- The distinct values of a list, in first-occurrence order: the
column labels that survive repeated pandas column assignment. -/
def firstOccurrences (l : List ℚ) : List ℚ :=
  l.foldl (fun ks x => if x ∈ ks then ks else ks ++ [x]) []

section Lemmas

/-- The final-flow column of the main table is the pointwise
`n0 + ν * ξ` over the input rows. -/
theorem mainTable_final_flow (rows : List SpeciesRow) (ξ : ℚ) :
    (mainTable rows ξ).map MainRow.final_flow =
      rows.map (fun r => r.initial_feed + r.coefficient * ξ) := by
  simp only [mainTable, List.map_map]
  rfl

/-- The change column of the main table is the pointwise `ν * ξ`. -/
theorem mainTable_change (rows : List SpeciesRow) (ξ : ℚ) :
    (mainTable rows ξ).map MainRow.change = rows.map (fun r => r.coefficient * ξ) := by
  simp only [mainTable, List.map_map]
  rfl

/-- Summing `n0 + ν * ξ` over the rows splits into the feed sum plus
`ξ` times the coefficient sum. -/
theorem sum_flow_split (rows : List SpeciesRow) (ξ : ℚ) :
    (rows.map (fun r => r.initial_feed + r.coefficient * ξ)).sum =
      (rows.map SpeciesRow.initial_feed).sum + ξ * (rows.map SpeciesRow.coefficient).sum := by
  induction rows with
  | nil => simp
  | cons r t ih => simp [ih]; ring

/-- Dividing each summand by a common denominator divides the sum. -/
theorem sum_map_div {α : Type} (l : List α) (g : α → ℚ) (S : ℚ) :
    (l.map (fun a => g a / S)).sum = (l.map g).sum / S := by
  induction l with
  | nil => simp
  | cons a t ih => simp [ih, add_div]

/-- Success of `compute` under the three validity conditions, with the
exact value it returns. -/
theorem compute_ok_of {rows : List SpeciesRow} {lim_index : ℤ} {conversion : ℚ}
    {multi_conv : String} {rowLim : SpeciesRow} {l : List ℚ}
    (hloc : locRow rows (lim_index - 1) = some rowLim)
    (hnu : rowLim.coefficient < 0)
    (hpl : parseConvList multi_conv = Except.ok l) :
    compute rows lim_index conversion multi_conv =
      Except.ok (⟨mainTable rows (xiOf rowLim.initial_feed rowLim.coefficient conversion)⟩,
        compTable rows rowLim.initial_feed rowLim.coefficient l) := by
  simp only [compute, hloc, hpl, not_le.mpr hnu, if_false]

/-- Inversion of a successful `compute`: the lookup, validation and
parse must all have succeeded, and the result is the pair of tables
built from them. -/
theorem compute_ok_inv {rows : List SpeciesRow} {lim_index : ℤ} {conversion : ℚ}
    {multi_conv : String} {main : MainResult} {comp : ComparisonResult}
    (h : compute rows lim_index conversion multi_conv = Except.ok (main, comp)) :
    ∃ rowLim l, locRow rows (lim_index - 1) = some rowLim ∧
      rowLim.coefficient < 0 ∧ parseConvList multi_conv = Except.ok l ∧
      main = ⟨mainTable rows (xiOf rowLim.initial_feed rowLim.coefficient conversion)⟩ ∧
      comp = compTable rows rowLim.initial_feed rowLim.coefficient l := by
  simp only [compute] at h
  rcases hloc : locRow rows (lim_index - 1) with _ | rowLim
  · rw [hloc] at h; simp at h
  · rw [hloc] at h
    simp only [] at h
    by_cases hnu : 0 ≤ rowLim.coefficient
    · rw [if_pos hnu] at h; simp at h
    · rw [if_neg hnu] at h
      rcases hpl : parseConvList multi_conv with e | l
      · rw [hpl] at h; simp at h
      · rw [hpl] at h
        simp only [Except.ok.injEq, Prod.mk.injEq] at h
        exact ⟨rowLim, l, rfl, not_le.mp hnu, rfl, h.1.symm, h.2.symm⟩

/-- When the limiting index is out of the table's range, the label
lookup fails. -/
theorem locRow_eq_none {rows : List SpeciesRow} {lim_index : ℤ}
    (hlen : rows.length = 4) (hout : lim_index < 1 ∨ 4 < lim_index) :
    locRow rows (lim_index - 1) = none := by
  unfold locRow
  rcases hout with h1 | h4
  · rw [if_pos (by omega)]
  · rw [if_neg (by omega)]
    apply List.getElem?_eq_none
    omega

/-- A list with one unparseable token collects to `none`. -/
theorem collectTokens_eq_none {toks : List (List Char)} {t : List Char}
    (ht : t ∈ toks) (hbad : pyFloat (pyStrip t) = none) :
    collectTokens toks = none := by
  induction toks with
  | nil => cases ht
  | cons a l ih =>
    rcases List.mem_cons.mp ht with rfl | ht2
    · simp [collectTokens, hbad]
    · cases hv : pyFloat (pyStrip a) <;> simp [collectTokens, hv, ih ht2]

/-- A property holding of every column and of the assigned pair holds
of every column after a pandas column assignment. -/
theorem setColumn_forall {P : ℚ × List ℚ → Prop} {cols : List (ℚ × List ℚ)}
    {x : ℚ} {v : List ℚ} (hc : ∀ p ∈ cols, P p) (hv : P (x, v)) :
    ∀ p ∈ setColumn cols x v, P p := by
  intro p hp
  unfold setColumn at hp
  split at hp
  · rcases List.mem_map.mp hp with ⟨q, hq, rfl⟩
    by_cases hqx : q.1 = x
    · simpa [hqx] using hv
    · simpa [hqx] using hc q hq
  · rcases List.mem_append.mp hp with hp1 | hp1
    · exact hc p hp1
    · simpa using List.mem_singleton.mp hp1 ▸ hv

/-- Every column of the comparison table carries the final-flow values
computed from its own label. -/
theorem compTable_column_values (rows : List SpeciesRow) (n0_lim nu_lim : ℚ)
    (l : List ℚ) :
    ∀ p ∈ (compTable rows n0_lim nu_lim l).columns,
      p.2 = flowColumn rows n0_lim nu_lim p.1 := by
  suffices h : ∀ (l : List ℚ) (cols : List (ℚ × List ℚ)),
      (∀ p ∈ cols, p.2 = flowColumn rows n0_lim nu_lim p.1) →
      ∀ p ∈ l.foldl
        (fun cs x => setColumn cs x (flowColumn rows n0_lim nu_lim x)) cols,
        p.2 = flowColumn rows n0_lim nu_lim p.1 by
    exact h l [] (by simp)
  intro l
  induction l with
  | nil => intro cols hc; exact hc
  | cons x t ih =>
    intro cols hc
    exact ih _ (setColumn_forall hc rfl)

/-- The labels after one pandas column assignment: unchanged when the
label already exists, appended otherwise. -/
theorem setColumn_keys (cols : List (ℚ × List ℚ)) (x : ℚ) (v : List ℚ) :
    (setColumn cols x v).map Prod.fst =
      if x ∈ cols.map Prod.fst then cols.map Prod.fst
      else cols.map Prod.fst ++ [x] := by
  unfold setColumn
  by_cases hx : x ∈ cols.map Prod.fst
  · rcases List.mem_map.mp hx with ⟨q, hq, hqx⟩
    rw [if_pos (List.any_eq_true.mpr ⟨q, hq, by simpa using hqx⟩), if_pos hx,
      List.map_map]
    apply List.map_congr_left
    intro c _
    by_cases hc : c.1 = x <;> simp [hc]
  · have hany : ¬ cols.any (fun c => c.1 = x) = true := by
      intro hany
      rcases List.any_eq_true.mp hany with ⟨q, hq, hqx⟩
      exact hx (List.mem_map.mpr ⟨q, hq, by simpa using hqx⟩)
    rw [if_neg hany, if_neg hx, List.map_append]
    simp

/-- The labels of the comparison table are the distinct comparison
values in first-occurrence order. -/
theorem compTable_keys (rows : List SpeciesRow) (n0_lim nu_lim : ℚ) (l : List ℚ) :
    (compTable rows n0_lim nu_lim l).columns.map Prod.fst = firstOccurrences l := by
  suffices h : ∀ (l : List ℚ) (cols : List (ℚ × List ℚ)),
      (l.foldl (fun cs x => setColumn cs x (flowColumn rows n0_lim nu_lim x)) cols).map
          Prod.fst =
        l.foldl (fun ks x => if x ∈ ks then ks else ks ++ [x]) (cols.map Prod.fst) by
    exact h l []
  intro l
  induction l with
  | nil => intro cols; rfl
  | cons x t ih =>
    intro cols
    simp only [List.foldl_cons]
    rw [ih, setColumn_keys]

/-- Membership in the first-occurrence list is membership in the
original list. -/
theorem mem_firstOccurrences {x : ℚ} {l : List ℚ} :
    x ∈ firstOccurrences l ↔ x ∈ l := by
  suffices h : ∀ (l ks : List ℚ),
      x ∈ l.foldl (fun ks x => if x ∈ ks then ks else ks ++ [x]) ks ↔ x ∈ ks ∨ x ∈ l by
    simpa using h l []
  intro l
  induction l with
  | nil => simp
  | cons y t ih =>
    intro ks
    simp only [List.foldl_cons]
    rw [ih]
    by_cases hy : y ∈ ks
    · simp only [if_pos hy, List.mem_cons]
      constructor
      · rintro (hk | ht)
        · exact Or.inl hk
        · exact Or.inr (Or.inr ht)
      · rintro (hk | rfl | ht)
        · exact Or.inl hk
        · exact Or.inl hy
        · exact Or.inr ht
    · simp only [if_neg hy, List.mem_append, List.mem_singleton, List.mem_cons]
      tauto

/-- A duplicate-free list is its own first-occurrence list. -/
theorem firstOccurrences_of_nodup {l : List ℚ} (hl : l.Nodup) :
    firstOccurrences l = l := by
  suffices h : ∀ (l ks : List ℚ), (∀ x ∈ l, x ∉ ks) → l.Nodup →
      l.foldl (fun ks x => if x ∈ ks then ks else ks ++ [x]) ks = ks ++ l by
    simpa using h l [] (by simp) hl
  intro l
  induction l with
  | nil => intro ks _ _; simp
  | cons x t ih =>
    intro ks hks hnd
    simp only [List.foldl_cons, if_neg (hks x (List.mem_cons_self x t))]
    rw [ih (ks ++ [x])]
    · simp
    · intro y hy
      simp only [List.mem_append, List.mem_singleton]
      rintro (hk | rfl)
      · exact hks y (List.mem_cons_of_mem x hy) hk
      · exact (List.nodup_cons.mp hnd).1 hy
    · exact (List.nodup_cons.mp hnd).2

end Lemmas

section Claims

/-- C2: for every input whose species row selected by `lim_index` has a
non-negative coefficient, `compute` fails with the validation error and
returns no result tables, whatever the values of every other field. -/
theorem validation_rejects_nonneg (rows : List SpeciesRow) (lim_index : ℤ)
    (conversion : ℚ) (multi_conv : String) (rowLim : SpeciesRow)
    (hloc : locRow rows (lim_index - 1) = some rowLim)
    (hnu : 0 ≤ rowLim.coefficient) :
    compute rows lim_index conversion multi_conv =
      Except.error StoichError.validationError := by
  simp only [compute, hloc]
  rw [if_pos hnu]

/-- Witness for C2: selecting the product row C (coefficient `1`) of the
default table fails validation even with a nonsense comparison string. -/
theorem validation_rejects_nonneg_witness :
    compute demoRows 3 1 "not numbers" = Except.error StoichError.validationError :=
  validation_rejects_nonneg demoRows 3 1 "not numbers" ⟨"C (Product)", 1, 0, 44⟩
    (by rfl) zero_le_one

/-- C3: for every 4-row table, a limiting index outside `[1,4]` makes
`compute` fail with the index error before producing any result. -/
theorem out_of_range_index_fails (rows : List SpeciesRow) (lim_index : ℤ)
    (conversion : ℚ) (multi_conv : String)
    (hlen : rows.length = 4) (hout : lim_index < 1 ∨ 4 < lim_index) :
    compute rows lim_index conversion multi_conv =
      Except.error StoichError.indexError := by
  simp only [compute, locRow_eq_none hlen hout]

/-- Witness for C3: index `0` on the default table fails with the index
error. -/
theorem out_of_range_index_fails_witness :
    compute demoRows 0 1 "1" = Except.error StoichError.indexError :=
  out_of_range_index_fails demoRows 0 1 "1" (by rfl) (Or.inl (by decide))

/-- C10: a non-negative limiting coefficient is reported as the
validation error even when the comparison string is malformed: the
validation precedes the comparison parse. -/
theorem validation_precedes_parse (rows : List SpeciesRow) (lim_index : ℤ)
    (conversion : ℚ) (multi_conv : String) (rowLim : SpeciesRow)
    (hloc : locRow rows (lim_index - 1) = some rowLim)
    (hnu : 0 ≤ rowLim.coefficient)
    (hbad : parseConvList multi_conv = Except.error StoichError.parseError) :
    compute rows lim_index conversion multi_conv =
      Except.error StoichError.validationError := by
  simp only [compute, hloc]
  rw [if_pos hnu]

/-- Witness for C10: the inert row D (coefficient `0`) fails validation
although the comparison string `","` would itself fail to parse. -/
theorem validation_precedes_parse_witness :
    compute demoRows 4 1 "," = Except.error StoichError.validationError :=
  validation_precedes_parse demoRows 4 1 "," ⟨"D (Inert)", 0, 50, 28⟩
    (by rfl) le_rfl (by rfl)

/-- C8: once the limiting-reactant validation passes, a comparison
string with any unparseable token (empty tokens included) makes
`compute` fail with the parse error instead of skipping the token. -/
theorem malformed_token_fails (rows : List SpeciesRow) (lim_index : ℤ)
    (conversion : ℚ) (multi_conv : String) (rowLim : SpeciesRow) (t : List Char)
    (hloc : locRow rows (lim_index - 1) = some rowLim)
    (hnu : rowLim.coefficient < 0)
    (ht : t ∈ splitOnComma multi_conv.data)
    (hbad : pyFloat (pyStrip t) = none) :
    compute rows lim_index conversion multi_conv =
      Except.error StoichError.parseError := by
  have hpl : parseConvList multi_conv = Except.error StoichError.parseError := by
    unfold parseConvList
    rw [collectTokens_eq_none ht hbad]
  simp only [compute, hloc, hpl]
  rw [if_neg (not_le.mpr hnu)]

/-- Witness for C8: the empty middle token of `"0.2, , 0.8"` fails the
whole computation on the default table. -/
theorem malformed_token_fails_witness :
    compute demoRows 1 1 "0.2, , 0.8" = Except.error StoichError.parseError :=
  malformed_token_fails demoRows 1 1 "0.2, , 0.8" ⟨"A (Reactant)", -1, 100, 16⟩
    [' '] (by rfl) (by norm_num) (by decide) (by decide)

/-- C6: a conversion of `0` leaves every final flow equal to the initial
feed, and every change column entry is `0`. -/
theorem zero_conversion_identity (rows : List SpeciesRow) (lim_index : ℤ)
    (multi_conv : String) (main : MainResult) (comp : ComparisonResult)
    (h : compute rows lim_index 0 multi_conv = Except.ok (main, comp)) :
    main.rows.map MainRow.final_flow = rows.map SpeciesRow.initial_feed ∧
      ∀ r ∈ main.rows, r.change = 0 := by
  rcases compute_ok_inv h with ⟨rowLim, l, hloc, hnu, hpl, hmain, hcomp⟩
  have hxi : xiOf rowLim.initial_feed rowLim.coefficient 0 = 0 := by
    simp [xiOf]
  subst hmain
  constructor
  · show (mainTable rows (xiOf rowLim.initial_feed rowLim.coefficient 0)).map
        MainRow.final_flow = _
    rw [hxi, mainTable_final_flow]
    simp
  · show ∀ r ∈ mainTable rows (xiOf rowLim.initial_feed rowLim.coefficient 0),
      r.change = 0
    rw [hxi]
    intro r hr
    simp only [mainTable, List.mem_map] at hr
    rcases hr with ⟨q, hq, rfl⟩
    simp

/-- Witness for C6: the default table at conversion `0`. -/
theorem zero_conversion_identity_witness :
    (MainResult.mk (mainTable demoRows (xiOf 100 (-1) 0))).rows.map
        MainRow.final_flow = demoRows.map SpeciesRow.initial_feed ∧
      ∀ r ∈ (MainResult.mk (mainTable demoRows (xiOf 100 (-1) 0))).rows,
        r.change = 0 :=
  zero_conversion_identity demoRows 1 "0" _ _
    (@compute_ok_of demoRows 1 0 "0" ⟨"A (Reactant)", -1, 100, 16⟩ [0]
      (by rfl) (by norm_num)
      (by simp +decide [parseConvList, collectTokens, pyFloat, parseDigits,
        isDigitChar, splitOnComma, pyStrip, isPySpace]))

/-- C1: for every accepted input, the final flows sum to the initial
feeds plus the extent of reaction times the coefficient sum (the
mole-balance identity). -/
theorem mole_balance (rows : List SpeciesRow) (lim_index : ℤ) (conversion : ℚ)
    (multi_conv : String) (main : MainResult) (comp : ComparisonResult)
    (rowLim : SpeciesRow)
    (h : compute rows lim_index conversion multi_conv = Except.ok (main, comp))
    (hloc : locRow rows (lim_index - 1) = some rowLim) :
    (main.rows.map MainRow.final_flow).sum =
      (rows.map SpeciesRow.initial_feed).sum +
        xiOf rowLim.initial_feed rowLim.coefficient conversion *
          (rows.map SpeciesRow.coefficient).sum := by
  rcases compute_ok_inv h with ⟨rowLim2, l, hloc2, hnu, hpl, hmain, hcomp⟩
  have heq : rowLim2 = rowLim := Option.some.inj (hloc2.symm.trans hloc)
  rw [heq] at hmain
  subst hmain
  show ((mainTable rows
      (xiOf rowLim.initial_feed rowLim.coefficient conversion)).map
      MainRow.final_flow).sum = _
  rw [mainTable_final_flow, sum_flow_split]

/-- Witness for C1: the mole balance at the default table, full
conversion. -/
theorem mole_balance_witness :
    ((MainResult.mk (mainTable demoRows (xiOf 100 (-1) 1))).rows.map
        MainRow.final_flow).sum =
      (demoRows.map SpeciesRow.initial_feed).sum +
        xiOf 100 (-1) 1 * (demoRows.map SpeciesRow.coefficient).sum :=
  mole_balance demoRows 1 1 "1" _ _ ⟨"A (Reactant)", -1, 100, 16⟩
    (@compute_ok_of demoRows 1 1 "1" ⟨"A (Reactant)", -1, 100, 16⟩ [1]
      (by rfl) (by norm_num)
      (by simp +decide [parseConvList, collectTokens, pyFloat, parseDigits,
        isDigitChar, splitOnComma, pyStrip, isPySpace]))
    (by rfl)

/-- C4: whenever `compute` succeeds and the final flows have a non-zero
sum, the mole fractions sum to exactly `1`. -/
theorem mole_fractions_sum_to_one (rows : List SpeciesRow) (lim_index : ℤ)
    (conversion : ℚ) (multi_conv : String) (main : MainResult)
    (comp : ComparisonResult)
    (h : compute rows lim_index conversion multi_conv = Except.ok (main, comp))
    (hS : (main.rows.map MainRow.final_flow).sum ≠ 0) :
    (main.rows.map (fun r => r.mole_fraction.getD 0)).sum = 1 := by
  rcases compute_ok_inv h with ⟨rowLim, l, hloc, hnu, hpl, hmain, hcomp⟩
  subst hmain
  set ξ := xiOf rowLim.initial_feed rowLim.coefficient conversion with hξ
  have hS2 : (rows.map (fun r => r.initial_feed + r.coefficient * ξ)).sum ≠ 0 := by
    rw [show (MainResult.mk (mainTable rows ξ)).rows = mainTable rows ξ from rfl,
      mainTable_final_flow] at hS
    exact hS
  have hmap : ((mainTable rows ξ).map (fun r => r.mole_fraction.getD 0)) =
      rows.map (fun r => (r.initial_feed + r.coefficient * ξ) /
        (rows.map (fun r => r.initial_feed + r.coefficient * ξ)).sum) := by
    simp only [mainTable, List.map_map]
    apply List.map_congr_left
    intro q hq
    simp only [Function.comp_apply]
    rw [if_neg hS2]
    rfl
  show ((mainTable rows ξ).map (fun r => r.mole_fraction.getD 0)).sum = 1
  rw [hmap, sum_map_div, div_self hS2]

/-- Witness for C4: the default table at full conversion has flow sum
`200`, and its mole fractions sum to `1`. -/
theorem mole_fractions_sum_to_one_witness :
    ((MainResult.mk (mainTable demoRows (xiOf 100 (-1) 1))).rows.map
        (fun r => r.mole_fraction.getD 0)).sum = 1 :=
  mole_fractions_sum_to_one demoRows 1 1 "1" _ _
    (@compute_ok_of demoRows 1 1 "1" ⟨"A (Reactant)", -1, 100, 16⟩ [1]
      (by rfl) (by norm_num)
      (by simp +decide [parseConvList, collectTokens, pyFloat, parseDigits,
        isDigitChar, splitOnComma, pyStrip, isPySpace]))
    (by rw [show (MainResult.mk (mainTable demoRows (xiOf 100 (-1) 1))).rows =
          mainTable demoRows (xiOf 100 (-1) 1) from rfl, mainTable_final_flow]
        norm_num [demoRows, xiOf])

/-- C5: a zero flow-sum (or mass-sum) does not fail the computation:
`compute` still succeeds, and the corresponding fraction column entries
are all the non-finite marker. -/
theorem zero_sum_fractions_nonfinite (rows : List SpeciesRow) (lim_index : ℤ)
    (conversion : ℚ) (multi_conv : String) (rowLim : SpeciesRow) (l : List ℚ)
    (ξ : ℚ)
    (hloc : locRow rows (lim_index - 1) = some rowLim)
    (hnu : rowLim.coefficient < 0)
    (hpl : parseConvList multi_conv = Except.ok l)
    (hξ : ξ = xiOf rowLim.initial_feed rowLim.coefficient conversion) :
    compute rows lim_index conversion multi_conv =
      Except.ok (⟨mainTable rows ξ⟩,
        compTable rows rowLim.initial_feed rowLim.coefficient l) ∧
    ((rows.map (fun r => r.initial_feed + r.coefficient * ξ)).sum = 0 →
      ∀ r ∈ mainTable rows ξ, r.mole_fraction = none) ∧
    ((rows.map (fun r => (r.initial_feed + r.coefficient * ξ) * r.molar_mass)).sum = 0 →
      ∀ r ∈ mainTable rows ξ, r.mass_fraction = none) := by
  subst hξ
  refine ⟨compute_ok_of hloc hnu hpl, ?_, ?_⟩
  · intro hS r hr
    simp only [mainTable, List.mem_map] at hr
    rcases hr with ⟨q, hq, rfl⟩
    show (if _ = 0 then none else _) = none
    rw [if_pos hS]
  · intro hM r hr
    simp only [mainTable, List.mem_map] at hr
    rcases hr with ⟨q, hq, rfl⟩
    show (if _ = 0 then none else _) = none
    rw [if_pos hM]

/-- Witness for C5: a table whose feeds sum to zero, at conversion `0`,
still computes, with every mole and mass fraction non-finite. -/
theorem zero_sum_fractions_nonfinite_witness :
    (compute zeroSumRows 1 0 "0" =
      Except.ok (⟨mainTable zeroSumRows (xiOf 2 (-1) 0)⟩,
        compTable zeroSumRows 2 (-1) [0])) ∧
    ((zeroSumRows.map
        (fun r => r.initial_feed + r.coefficient * xiOf 2 (-1) 0)).sum = 0 →
      ∀ r ∈ mainTable zeroSumRows (xiOf 2 (-1) 0), r.mole_fraction = none) ∧
    ((zeroSumRows.map
        (fun r => (r.initial_feed + r.coefficient * xiOf 2 (-1) 0) *
          r.molar_mass)).sum = 0 →
      ∀ r ∈ mainTable zeroSumRows (xiOf 2 (-1) 0), r.mass_fraction = none) :=
  zero_sum_fractions_nonfinite zeroSumRows
    1 0 "0" ⟨"A", -1, 2, 1⟩ [0] (xiOf 2 (-1) 0)
    (by rfl) (by norm_num)
    (by simp +decide [parseConvList, collectTokens, pyFloat, parseDigits,
      isDigitChar, splitOnComma, pyStrip, isPySpace])
    (by rfl)

/-- C7: any comparison value equal to the main conversion labels a
column that is exactly the main table's final-flow column. -/
theorem comparison_matches_main (rows : List SpeciesRow) (lim_index : ℤ)
    (conversion : ℚ) (multi_conv : String) (main : MainResult)
    (comp : ComparisonResult) (l : List ℚ) (x : ℚ)
    (h : compute rows lim_index conversion multi_conv = Except.ok (main, comp))
    (hpl : parseConvList multi_conv = Except.ok l)
    (hxl : x ∈ l) (hx : x = conversion) :
    (x, main.rows.map MainRow.final_flow) ∈ comp.columns ∧
      ∀ col, (x, col) ∈ comp.columns → col = main.rows.map MainRow.final_flow := by
  rcases compute_ok_inv h with ⟨rowLim, l2, hloc, hnu, hpl2, hmain, hcomp⟩
  have heq : l2 = l := Except.ok.inj (hpl2.symm.trans hpl)
  rw [heq] at hcomp
  subst hmain hcomp hx
  have hflows : (MainResult.mk (mainTable rows
        (xiOf rowLim.initial_feed rowLim.coefficient x))).rows.map
      MainRow.final_flow = flowColumn rows rowLim.initial_feed rowLim.coefficient x := by
    show (mainTable rows (xiOf rowLim.initial_feed rowLim.coefficient x)).map
      MainRow.final_flow = _
    rw [mainTable_final_flow]
    rfl
  constructor
  · have hkey : x ∈ (compTable rows rowLim.initial_feed rowLim.coefficient l).columns.map
        Prod.fst := by
      rw [compTable_keys]
      exact mem_firstOccurrences.mpr hxl
    rcases List.mem_map.mp hkey with ⟨p, hp, hpx⟩
    have hpv := compTable_column_values rows rowLim.initial_feed rowLim.coefficient l p hp
    have : (x, (MainResult.mk (mainTable rows
        (xiOf rowLim.initial_feed rowLim.coefficient x))).rows.map
          MainRow.final_flow) = p := by
      rcases p with ⟨px, pv⟩
      simp only at hpx hpv
      subst hpx
      rw [hflows, hpv]
    rw [this]
    exact hp
  · intro col hcol
    have hpv := compTable_column_values rows rowLim.initial_feed rowLim.coefficient l
      (x, col) hcol
    simp only at hpv
    rw [hflows, hpv]

/-- Witness for C7: at the default table, the comparison column for
`x = 1` (the main conversion) is the main final-flow column. -/
theorem comparison_matches_main_witness :
    ((1 : ℚ), (MainResult.mk (mainTable demoRows (xiOf 100 (-1) 1))).rows.map
        MainRow.final_flow) ∈ (compTable demoRows 100 (-1) [1]).columns ∧
      ∀ col, ((1 : ℚ), col) ∈ (compTable demoRows 100 (-1) [1]).columns →
        col = (MainResult.mk (mainTable demoRows (xiOf 100 (-1) 1))).rows.map
          MainRow.final_flow :=
  comparison_matches_main demoRows 1 1 "1" _ _ [1] 1
    (@compute_ok_of demoRows 1 1 "1" ⟨"A (Reactant)", -1, 100, 16⟩ [1]
      (by rfl) (by norm_num)
      (by simp +decide [parseConvList, collectTokens, pyFloat, parseDigits,
        isDigitChar, splitOnComma, pyStrip, isPySpace]))
    (by simp +decide [parseConvList, collectTokens, pyFloat, parseDigits,
      isDigitChar, splitOnComma, pyStrip, isPySpace])
    (List.mem_singleton.mpr rfl) rfl

/-- C9 counterexample: the comparison string `"1, 1"` parses to a
two-element list, yet the comparison table carries only one conversion
column (three named columns in all, not `2 + 2 = 4`): the second pandas
assignment to the label `X = 1` overwrites the first column instead of
adding one. -/
theorem comparison_shape_counterexample :
    parseConvList "1, 1" = Except.ok [1, 1] ∧
    compute demoRows 1 1 "1, 1" =
      Except.ok (⟨mainTable demoRows (xiOf 100 (-1) 1)⟩,
        compTable demoRows 100 (-1) [1, 1]) ∧
    (compTable demoRows 100 (-1) [1, 1]).columns.length = 1 ∧
    (compTable demoRows 100 (-1) [1, 1]).columns.length ≠
      ([1, 1] : List ℚ).length := by
  refine ⟨?_, ?_, ?_, ?_⟩
  · simp +decide [parseConvList, collectTokens, pyFloat, parseDigits,
      isDigitChar, splitOnComma, pyStrip, isPySpace]
  · exact @compute_ok_of demoRows 1 1 "1, 1" ⟨"A (Reactant)", -1, 100, 16⟩ [1, 1]
      (by rfl) (by norm_num)
      (by simp +decide [parseConvList, collectTokens, pyFloat, parseDigits,
        isDigitChar, splitOnComma, pyStrip, isPySpace])
  · simp [compTable, setColumn, flowColumn]
  · simp [compTable, setColumn, flowColumn]

/-- C9 (amended): for every accepted input, the comparison table has the
4-row species and initial-feed columns plus one 4-row final-flow column
per distinct value of the parsed comparison list, labelled by those
distinct values in first-occurrence order (a repeated value overwrites
its existing column rather than appending a new one); in particular
there are exactly `2 + k` columns when the `k` entries are pairwise
distinct. -/
theorem comparison_shape (rows : List SpeciesRow) (lim_index : ℤ)
    (conversion : ℚ) (multi_conv : String) (main : MainResult)
    (comp : ComparisonResult) (l : List ℚ)
    (h : compute rows lim_index conversion multi_conv = Except.ok (main, comp))
    (hpl : parseConvList multi_conv = Except.ok l)
    (hlen : rows.length = 4) :
    comp.species.length = 4 ∧ comp.initial_feed.length = 4 ∧
      comp.columns.map Prod.fst = firstOccurrences l ∧
      (∀ p ∈ comp.columns, p.2.length = 4) ∧
      (l.Nodup → comp.columns.length = l.length) := by
  rcases compute_ok_inv h with ⟨rowLim, l2, hloc, hnu, hpl2, hmain, hcomp⟩
  have heq : l2 = l := Except.ok.inj (hpl2.symm.trans hpl)
  rw [heq] at hcomp
  subst hcomp
  refine ⟨?_, ?_, compTable_keys rows rowLim.initial_feed rowLim.coefficient l,
    ?_, ?_⟩
  · show (rows.map SpeciesRow.name).length = 4
    simp [hlen]
  · show (rows.map SpeciesRow.initial_feed).length = 4
    simp [hlen]
  · intro p hp
    rw [compTable_column_values rows rowLim.initial_feed rowLim.coefficient l p hp]
    show (rows.map _).length = 4
    simp [hlen]
  · intro hnd
    have h2 : ((compTable rows rowLim.initial_feed
        rowLim.coefficient l).columns.map Prod.fst).length = l.length := by
      rw [compTable_keys, firstOccurrences_of_nodup hnd]
    simpa using h2

/-- Witness for the amended C9: the default table with the single
comparison value `1`. -/
theorem comparison_shape_witness :
    (compTable demoRows 100 (-1) [1]).species.length = 4 ∧
      (compTable demoRows 100 (-1) [1]).initial_feed.length = 4 ∧
      (compTable demoRows 100 (-1) [1]).columns.map Prod.fst =
        firstOccurrences [1] ∧
      (∀ p ∈ (compTable demoRows 100 (-1) [1]).columns, p.2.length = 4) ∧
      (([1] : List ℚ).Nodup →
        (compTable demoRows 100 (-1) [1]).columns.length = ([1] : List ℚ).length) :=
  comparison_shape demoRows 1 1 "1" _ _ [1]
    (@compute_ok_of demoRows 1 1 "1" ⟨"A (Reactant)", -1, 100, 16⟩ [1]
      (by rfl) (by norm_num)
      (by simp +decide [parseConvList, collectTokens, pyFloat, parseDigits,
        isDigitChar, splitOnComma, pyStrip, isPySpace]))
    (by simp +decide [parseConvList, collectTokens, pyFloat, parseDigits,
      isDigitChar, splitOnComma, pyStrip, isPySpace])
    (by rfl)

end Claims

end Stoich
